import Mathlib

/-!
Shallow embedding of the fsfuse translation layer:
the error translator (util.go, toErrno), the mode translators
(util.go, toFileMode and toFuseMode), the attribute translator
(util.go, statToAttr with fillFromXFI and fillFromStat), the
path-node operations Getattr, Rename and Setattr with its chmod,
chown, chtimes and truncate sub-operations (fsfuse.go), and the
file-handle sequential-fallback Read and Write (filehandle.go).
Machine integers are modelled as Nat; Go errors are modelled by the
observations toErrno makes of them; the backend is modelled by the
results its calls return, together with a trace of the calls issued.
-/

namespace FsFuse

/-! Linux errno codes used by the source (syscall package values). -/

def EPERM : Nat := 1
def ENOENT : Nat := 2
def EIOerr : Nat := 5
def EINVAL : Nat := 22
def EEXIST : Nat := 17
def ENOSYS : Nat := 38
def EXDEV : Nat := 18

/--
Model of a Go error value as observed by toErrno (util.go).
A Go error is inspected only through errors.As against syscall.Errno
(field errnoVal, some c when the chain carries Errno c) and through
errors.Is against the five sentinel errors fs.ErrNotExist,
fs.ErrPermission, fs.ErrInvalid, fs.ErrExist and errors.ErrUnsupported
(the five Bool fields). A nil Go error is Option.none at use sites.
-/
structure GoError where
  errnoVal : Option Nat
  isNotExist : Bool
  isPermission : Bool
  isInvalid : Bool
  isExist : Bool
  isUnsupported : Bool
deriving DecidableEq

/--
Transcription of toErrno (util.go lines 22-46): nil maps to 0, an
error carrying a syscall.Errno yields that code, otherwise the five
sentinel checks run in source order, and anything unmatched yields
the generic I/O code.
-/
def toErrno : Option GoError → Nat
  | Option.none => 0
  | Option.some e =>
    match e.errnoVal with
    | Option.some c => c
    | Option.none =>
      if e.isNotExist then ENOENT
      else if e.isPermission then EPERM
      else if e.isInvalid then EINVAL
      else if e.isExist then EEXIST
      else if e.isUnsupported then ENOSYS
      else EIOerr

/-- A Go error matched by none of the checks toErrno performs. -/
def unrecognizedError : GoError :=
  { errnoVal := Option.none, isNotExist := false, isPermission := false,
    isInvalid := false, isExist := false, isUnsupported := false }

/-! Mode translators (util.go).  Constants are the Go syscall S_IF and
S_IS values and the Go io/fs FileMode bit assignments. -/

def S_IFMT : Nat := 0xF000
def S_IFIFO : Nat := 0x1000
def S_IFCHR : Nat := 0x2000
def S_IFDIR : Nat := 0x4000
def S_IFBLK : Nat := 0x6000
def S_IFREG : Nat := 0x8000
def S_IFLNK : Nat := 0xA000
def S_IFSOCK : Nat := 0xC000
def S_ISUID : Nat := 0x800
def S_ISGID : Nat := 0x400
def S_ISVTX : Nat := 0x200

def ModeDir : Nat := 2 ^ 31
def ModeSymlink : Nat := 2 ^ 27
def ModeDevice : Nat := 2 ^ 26
def ModeNamedPipe : Nat := 2 ^ 25
def ModeSocket : Nat := 2 ^ 24
def ModeSetuid : Nat := 2 ^ 23
def ModeSetgid : Nat := 2 ^ 22
def ModeCharDevice : Nat := 2 ^ 20
def ModeSticky : Nat := 2 ^ 19

/--
Transcription of toFileMode (util.go lines 159-187): pick the
permission bits, map the exclusive S_IFMT type case to the host
FileMode type flags, then fold in the three special bits.
-/
def toFileMode (mode : Nat) : Nat :=
  let m := mode &&& 0o777
  let m :=
    if mode &&& S_IFMT = S_IFDIR then m ||| ModeDir
    else if mode &&& S_IFMT = S_IFCHR then m ||| ModeDevice ||| ModeCharDevice
    else if mode &&& S_IFMT = S_IFBLK then m ||| ModeDevice
    else if mode &&& S_IFMT = S_IFREG then m
    else if mode &&& S_IFMT = S_IFIFO then m ||| ModeNamedPipe
    else if mode &&& S_IFMT = S_IFLNK then m ||| ModeSymlink
    else if mode &&& S_IFMT = S_IFSOCK then m ||| ModeSocket
    else m
  let m := if mode &&& S_ISUID ≠ 0 then m ||| ModeSetuid else m
  let m := if mode &&& S_ISGID ≠ 0 then m ||| ModeSetgid else m
  if mode &&& S_ISVTX ≠ 0 then m ||| ModeSticky else m

/--
Transcription of toFuseMode (util.go lines 190-220): permission bits
pass through, the first matching host type flag selects the S_IF
case (regular file as default), then the three special bits.
-/
def toFuseMode (mode : Nat) : Nat :=
  let m := mode &&& 0o777
  let m :=
    if mode &&& ModeDir ≠ 0 then m ||| S_IFDIR
    else if mode &&& ModeSymlink ≠ 0 then m ||| S_IFLNK
    else if mode &&& ModeNamedPipe ≠ 0 then m ||| S_IFIFO
    else if mode &&& ModeSocket ≠ 0 then m ||| S_IFSOCK
    else if mode &&& ModeDevice ≠ 0 then
      if mode &&& ModeCharDevice ≠ 0 then m ||| S_IFCHR else m ||| S_IFBLK
    else m ||| S_IFREG
  let m := if mode &&& ModeSetuid ≠ 0 then m ||| S_ISUID else m
  let m := if mode &&& ModeSetgid ≠ 0 then m ||| S_ISGID else m
  if mode &&& ModeSticky ≠ 0 then m ||| S_ISVTX else m

/-- The seven protocol-native (FUSE) file-type encodings. -/
def fuseTypeBits : List Nat :=
  [S_IFDIR, S_IFCHR, S_IFBLK, S_IFREG, S_IFIFO, S_IFLNK, S_IFSOCK]

/-- The corresponding seven host-native file-type flag encodings. -/
def hostTypeBits : List Nat :=
  [ModeDir, ModeDevice ||| ModeCharDevice, ModeDevice, 0,
   ModeNamedPipe, ModeSymlink, ModeSocket]

/-- All eight setuid/setgid/sticky combinations, protocol encoding. -/
def fuseSpecialBits : List Nat :=
  [0, S_ISUID, S_ISGID, S_ISVTX, S_ISUID ||| S_ISGID,
   S_ISUID ||| S_ISVTX, S_ISGID ||| S_ISVTX,
   S_ISUID ||| S_ISGID ||| S_ISVTX]

/-- All eight setuid/setgid/sticky combinations, host encoding. -/
def hostSpecialBits : List Nat :=
  [0, ModeSetuid, ModeSetgid, ModeSticky, ModeSetuid ||| ModeSetgid,
   ModeSetuid ||| ModeSticky, ModeSetgid ||| ModeSticky,
   ModeSetuid ||| ModeSetgid ||| ModeSticky]

/-- Representative permission-bit values named by the claim. -/
def permBits : List Nat := [0o644, 0o755, 0o777]

/-!
File-handle sequential fallback (filehandle.go).  The backend file in
this regime supports neither io.ReaderAt nor io.Seeker nor io.WriterAt,
so only its sequential Read and Write are available.  The readable side
is a finite byte stream (data with a cursor pos); Read and io.CopyN
consume from it, returning io.EOF exactly when the stream is exhausted
before the request is satisfied, per the io package contracts.  The
writable side records each sequential Write call as one chunk.
-/

/-- Backend file state for the pure-sequential regime. -/
structure SeqBackend where
  data : List Nat
  pos : Nat
  written : List (List Nat)
deriving DecidableEq

/-- Bytes still readable from the sequential stream. -/
def seqAvail (f : SeqBackend) : Nat := f.data.length - f.pos

/--
One sequential read into a buffer of destLen bytes: produces
min destLen avail bytes and reports io.EOF when the stream was
already exhausted.
-/
def seqReadStep (f : SeqBackend) (destLen : Nat) : Nat × SeqBackend × Bool :=
  let n := min destLen (seqAvail f)
  (n, { f with pos := f.pos + n }, seqAvail f == 0)

/--
Model of io.CopyN into io.Discard: discards up to k bytes from the
stream and reports io.EOF exactly when fewer than k were available.
-/
def copyNDiscard (f : SeqBackend) (k : Nat) : Nat × SeqBackend × Bool :=
  let n := min k (seqAvail f)
  (n, { f with pos := f.pos + n }, n < k)

/-- One sequential write: the chunk is recorded and fully accepted. -/
def seqWriteStep (f : SeqBackend) (chunk : List Nat) : Nat × SeqBackend :=
  (chunk.length, { f with written := f.written ++ [chunk] })

/--
File handle state: the wrapped backend file and the tracked offset
(field offset of fileHandle, filehandle.go line 21).
-/
structure FileHandle where
  f : SeqBackend
  offset : Nat
deriving DecidableEq

/--
Handle creation as done by node.Open and node.Create (fsfuse.go):
the offset field is left at its zero value.
-/
def mkFileHandle (f : SeqBackend) : FileHandle := { f := f, offset := 0 }

/-- Outcome of a FUSE read request: an errno or n bytes of data. -/
inductive ReadOutcome where
  | errno (e : Nat)
  | bytes (n : Nat)
deriving DecidableEq

/--
Transcription of the sequential fallback of fileHandle.Read
(filehandle.go lines 66-89), reached when the backend file supports
neither random-access reads nor seeking: a backward request returns
ENOSYS; a forward gap is discarded via io.CopyN with the tracked
offset advanced by the bytes actually discarded, io.EOF during the
discard returning success with zero bytes; then one sequential read
fills the buffer and advances the tracked offset by the bytes
produced, io.EOF being success.
-/
def fileHandleRead (fh : FileHandle) (destLen off : Nat) :
    ReadOutcome × FileHandle :=
  if off < fh.offset then (ReadOutcome.errno ENOSYS, fh)
  else if off > fh.offset then
    let r := copyNDiscard fh.f (off - fh.offset)
    let fh1 : FileHandle := { f := r.2.1, offset := fh.offset + r.1 }
    if r.2.2 then (ReadOutcome.bytes 0, fh1)
    else
      let s := seqReadStep fh1.f destLen
      (ReadOutcome.bytes s.1, { f := s.2.1, offset := fh1.offset + s.1 })
  else
    let s := seqReadStep fh.f destLen
    (ReadOutcome.bytes s.1, { f := s.2.1, offset := fh.offset + s.1 })

/--
Transcription of the zero-padding loop of fileHandle.Write
(filehandle.go lines 128-143): while remaining bytes are left, write
a zero-filled chunk of min remaining 4096 bytes and continue with the
rest.  Returns the final backend state and the total bytes written.
-/
def padZeros (f : SeqBackend) (remaining : Nat) : SeqBackend × Nat :=
  if remaining = 0 then (f, 0)
  else
    let toWrite := min remaining 4096
    let w := seqWriteStep f (List.replicate toWrite 0)
    let rest := padZeros w.2 (remaining - w.1)
    (rest.1, w.1 + rest.2)
termination_by remaining
decreasing_by simp [seqWriteStep]; omega

/--
Chunk sequence the padding loop emits for a gap of the given size:
chunks of min remaining 4096 zero bytes until the gap is closed.
-/
def zeroChunks (remaining : Nat) : List (List Nat) :=
  if remaining = 0 then []
  else
    List.replicate (min remaining 4096) 0 ::
      zeroChunks (remaining - min remaining 4096)
termination_by remaining
decreasing_by omega

/--
Transcription of the sequential fallback of fileHandle.Write
(filehandle.go lines 125-152), reached when the backend file supports
neither random-access writes nor seeking: a backward request returns
ENOSYS; a forward gap is closed by the zero-padding loop, the tracked
offset advancing with the padded bytes; then the payload is written
with one sequential write and the tracked offset advances by the
bytes written.  Result is (bytes accepted, errno) and the new handle.
-/
def fileHandleWrite (fh : FileHandle) (data : List Nat) (off : Nat) :
    (Nat × Nat) × FileHandle :=
  if off < fh.offset then ((0, ENOSYS), fh)
  else
    let fh1 : FileHandle :=
      if off > fh.offset then
        let r := padZeros fh.f (off - fh.offset)
        { f := r.1, offset := fh.offset + r.2 }
      else fh
    let w := seqWriteStep fh1.f data
    ((w.1, 0), { f := w.2, offset := fh1.offset + w.1 })

/-- One operation on an open file handle. -/
inductive FHOp where
  | read (destLen off : Nat)
  | write (data : List Nat) (off : Nat)
  | flush
  | release
deriving DecidableEq

/--
State transition of the handle under one operation: Read and Write
update it per the fallback logic; Flush (filehandle.go line 157) and
Release (filehandle.go line 162) leave the tracked offset untouched.
-/
def fhStep (fh : FileHandle) (op : FHOp) : FileHandle :=
  match op with
  | FHOp.read d o => (fileHandleRead fh d o).2
  | FHOp.write data o => (fileHandleWrite fh data o).2
  | FHOp.flush => fh
  | FHOp.release => fh

/-!
Attribute translator (util.go).  A timestamp is a seconds/nanoseconds
pair.  A backend file-info object carries the minimal metadata of
fs.FileInfo plus three optional enrichments: a direct fsx.FileInfo
implementation (xfi), a raw syscall.Stat_t from Sys() (sys), and the
view fsx.ExtendFileInfo may synthesize for it (ext, Option.none when
that helper returns nil, as the nil check in statToAttr line 130
anticipates).  Owner and group resolution (decimal parse, then system
account lookup, either possibly failing) is modelled by its outcome:
Option.none when both steps fail and the id field keeps its prior
value.
-/

/-- Extended metadata view (fsx.FileInfo beyond fs.FileInfo). -/
structure XInfo where
  accessTime : Nat × Nat
  changeTime : Nat × Nat
  ownerId : Option Nat
  groupId : Option Nat
deriving DecidableEq

/-- Raw system stat structure (syscall.Stat_t fields used). -/
structure StatT where
  ino : Nat
  nlink : Nat
  uid : Nat
  gid : Nat
  rdev : Nat
  blksize : Nat
  blocks : Nat
  atimeSec : Nat
  atimeNsec : Nat
  ctimeSec : Nat
  ctimeNsec : Nat
deriving DecidableEq

/-- Backend file-info object as consumed by the translator. -/
structure FileInfo where
  size : Nat
  mode : Nat
  modTime : Nat × Nat
  isDir : Bool
  xfi : Option XInfo
  sys : Option StatT
  ext : Option XInfo
deriving DecidableEq

/--
Model of contextual.ExtendFileInfo applied to a file info: an object
already implementing the extended interface is returned as is, else
the synthesized view (ext) results, which may be absent (nil).
-/
def extendFileInfo (fi : FileInfo) : Option XInfo :=
  match fi.xfi with
  | Option.some x => Option.some x
  | Option.none => fi.ext

/-- Output attribute record (the fuse.Attr fields the source sets). -/
structure Attr where
  size : Nat
  mode : Nat
  mtime : Nat
  mtimensec : Nat
  atime : Nat
  atimensec : Nat
  ctime : Nat
  ctimensec : Nat
  blksize : Nat
  nlink : Nat
  ino : Nat
  rdev : Nat
  blocks : Nat
  uid : Nat
  gid : Nat
deriving DecidableEq

/-- Zero-initialized attribute record as handed in by the protocol. -/
def zeroAttr : Attr :=
  { size := 0, mode := 0, mtime := 0, mtimensec := 0, atime := 0,
    atimensec := 0, ctime := 0, ctimensec := 0, blksize := 0,
    nlink := 0, ino := 0, rdev := 0, blocks := 0, uid := 0, gid := 0 }

/--
Transcription of fillFromXFI (util.go lines 56-80): access and change
times are copied; owner and group ids are set only when resolution
succeeded, otherwise the field keeps its prior value.
-/
def fillFromXFI (x : XInfo) (out : Attr) : Attr :=
  let out := { out with
    atime := x.accessTime.1, atimensec := x.accessTime.2,
    ctime := x.changeTime.1, ctimensec := x.changeTime.2 }
  let out :=
    match x.ownerId with
    | Option.some u => { out with uid := u }
    | Option.none => out
  match x.groupId with
  | Option.some g => { out with gid := g }
  | Option.none => out

/--
Transcription of fillFromStat (util.go lines 85-98): inode, link
count, ids, device id, block size and count, and raw access/change
timestamps are copied from the stat structure.
-/
def fillFromStat (st : StatT) (out : Attr) : Attr :=
  { out with
    ino := st.ino, nlink := st.nlink, uid := st.uid, gid := st.gid,
    rdev := st.rdev, blksize := st.blksize, blocks := st.blocks,
    atime := st.atimeSec, atimensec := st.atimeNsec,
    ctime := st.ctimeSec, ctimensec := st.ctimeNsec }

/--
Transcription of statToAttr (util.go lines 107-153): baseline fields
and defaults, then one of the three enrichment branches in source
order, then the stat supplement when the source offered both views,
then the minimum link count of 2 for directories.
-/
def statToAttr (fi : FileInfo) (out : Attr) : Attr :=
  let out : Attr := { out with
    size := fi.size, mode := toFuseMode fi.mode,
    mtime := fi.modTime.1, mtimensec := fi.modTime.2,
    atime := fi.modTime.1, atimensec := fi.modTime.2,
    ctime := fi.modTime.1, ctimensec := fi.modTime.2,
    blksize := 4096, nlink := 1 }
  let out : Attr :=
    match fi.xfi with
    | Option.some x => fillFromXFI x out
    | Option.none =>
      match fi.sys with
      | Option.some st => fillFromStat st out
      | Option.none =>
        match fi.ext with
        | Option.some x => fillFromXFI x out
        | Option.none => out
  let out : Attr :=
    match fi.xfi, fi.sys with
    | Option.some _, Option.some st =>
      let out : Attr := { out with
        ino := st.ino, rdev := st.rdev, blksize := st.blksize,
        blocks := st.blocks }
      if st.nlink > 0 then { out with nlink := st.nlink } else out
    | _, _ => out
  if fi.isDir = true ∧ out.nlink < 2 then { out with nlink := 2 } else out

/-!
Path-node operations (fsfuse.go).  A node call is a backend request
with its arguments; paths are component lists joined by appending a
child name.  The backend is modelled by the result each of its calls
would return; a run of an operation yields the translated errno
together with the trace of backend calls issued and the log events
emitted.
-/

/-- Backend filesystem calls a node operation may issue. -/
inductive NodeCall where
  | chmodC (mode : Nat)
  | lchownC (uid gid : Option Nat)
  | lstatC
  | chtimesC (atimeArg mtimeArg : Nat × Nat)
  | truncateC (size : Nat)
  | renameC (oldPath newPath : List String)
deriving DecidableEq

/-- Log events relevant to the modelled node operations. -/
inductive LogEvent where
  | getattrFailed
  | chmodFailed
  | chownFailed
  | chtimesLstatFailed
  | chtimesFailed
  | truncateFailed
  | renameFailed
deriving DecidableEq

/-- Results the backend would return to the modelled operations. -/
structure Backend where
  chmodErr : Option GoError
  lchownErr : Option GoError
  chtimesErr : Option GoError
  truncateErr : Option GoError
  renameErr : Option GoError
  lstatRes : Except GoError FileInfo

/-- Outcome of a node Getattr: errno, filled attributes when
successful, backend calls issued, and log events emitted. -/
structure GetattrOut where
  errno : Nat
  attr : Option Attr
  calls : List NodeCall
  logs : List LogEvent
deriving DecidableEq

/--
Path-resolution tail of node.Getattr (fsfuse.go lines 200-209):
Lstat the node path; a failure is translated and, unless it is
ENOENT, logged; success fills the attributes.
-/
def getattrByPath (b : Backend) : GetattrOut :=
  match b.lstatRes with
  | Except.error e =>
    let errno := toErrno (Option.some e)
    { errno := errno, attr := Option.none, calls := [NodeCall.lstatC],
      logs := if errno ≠ ENOENT then [LogEvent.getattrFailed] else [] }
  | Except.ok fi =>
    { errno := 0, attr := Option.some (statToAttr fi zeroAttr),
      calls := [NodeCall.lstatC], logs := [] }

/--
Transcription of node.Getattr (fsfuse.go lines 189-210).  The
argument fh is Option.none when no handle of this layer is supplied,
and otherwise carries the result the handle's backend Stat() call
returns.  A successful handle stat fills the attributes and returns
at once; a failed one falls through to path resolution without any
log or errno of its own.
-/
def getattrModel (b : Backend) (fh : Option (Except GoError FileInfo)) :
    GetattrOut :=
  match fh with
  | Option.some (Except.ok fi) =>
    { errno := 0, attr := Option.some (statToAttr fi zeroAttr),
      calls := [], logs := [] }
  | Option.some (Except.error _) => getattrByPath b
  | Option.none => getattrByPath b

/-- Requested attribute changes of a set-attributes call (the fields
of fuse.SetAttrIn the source consults, each Option.none when the
corresponding valid bit is unset). -/
structure SetAttrIn where
  mode : Option Nat
  uid : Option Nat
  gid : Option Nat
  size : Option Nat
  mtime : Option (Nat × Nat)
  atime : Option (Nat × Nat)
deriving DecidableEq

/-- Transcription of node.chmod (fsfuse.go lines 438-448). -/
def chmodOp (b : Backend) (sa : SetAttrIn) : Nat × List NodeCall :=
  match sa.mode with
  | Option.none => (0, [])
  | Option.some m => (toErrno b.chmodErr, [NodeCall.chmodC m])

/-- Transcription of node.chown (fsfuse.go lines 450-471): a single
combined owner and group change, each argument absent when the
corresponding id was not requested. -/
def chownOp (b : Backend) (sa : SetAttrIn) : Nat × List NodeCall :=
  match sa.uid, sa.gid with
  | Option.none, Option.none => (0, [])
  | u, g => (toErrno b.lchownErr, [NodeCall.lchownC u g])

/--
Transcription of node.chtimes (fsfuse.go lines 473-509).  When only
one of modify and access time is requested, the node re-stats the
path: a failed stat returns its translated errno; otherwise the
missing modify time is taken from the stat result's ModTime and the
missing access time from the Extended Metadata view obtained through
contextual.ExtendFileInfo without a nil check, so a stat result with
no such view makes the Go code dereference a nil interface, modelled
as Option.none (the operation does not complete).
-/
def chtimesOp (b : Backend) (sa : SetAttrIn) :
    Option (Nat × List NodeCall) :=
  match sa.mtime, sa.atime with
  | Option.none, Option.none => Option.some (0, [])
  | Option.some mt, Option.some atv =>
    Option.some (toErrno b.chtimesErr, [NodeCall.chtimesC atv mt])
  | Option.some mt, Option.none =>
    match b.lstatRes with
    | Except.error e =>
      Option.some (toErrno (Option.some e), [NodeCall.lstatC])
    | Except.ok fi =>
      match extendFileInfo fi with
      | Option.none => Option.none
      | Option.some x =>
        Option.some (toErrno b.chtimesErr,
          [NodeCall.lstatC, NodeCall.chtimesC x.accessTime mt])
  | Option.none, Option.some atv =>
    match b.lstatRes with
    | Except.error e =>
      Option.some (toErrno (Option.some e), [NodeCall.lstatC])
    | Except.ok fi =>
      Option.some (toErrno b.chtimesErr,
        [NodeCall.lstatC, NodeCall.chtimesC atv fi.modTime])

/-- Transcription of node.truncate (fsfuse.go lines 511-521). -/
def truncateOp (b : Backend) (sa : SetAttrIn) : Nat × List NodeCall :=
  match sa.size with
  | Option.none => (0, [])
  | Option.some sz => (toErrno b.truncateErr, [NodeCall.truncateC sz])

/--
Transcription of node.Setattr (fsfuse.go lines 422-436): chmod, then
chown, then chtimes, then truncate, stopping at the first nonzero
errno, and finishing with Getattr (no open handle is supplied by the
modelled flow).  Option.none propagates a chtimes crash.
-/
def setattrModel (b : Backend) (sa : SetAttrIn) :
    Option (Nat × List NodeCall) :=
  let c1 := chmodOp b sa
  if c1.1 ≠ 0 then Option.some (c1.1, c1.2)
  else
    let c2 := chownOp b sa
    if c2.1 ≠ 0 then Option.some (c2.1, c1.2 ++ c2.2)
    else
      match chtimesOp b sa with
      | Option.none => Option.none
      | Option.some c3 =>
        if c3.1 ≠ 0 then Option.some (c3.1, c1.2 ++ c2.2 ++ c3.2)
        else
          let c4 := truncateOp b sa
          if c4.1 ≠ 0 then
            Option.some (c4.1, c1.2 ++ c2.2 ++ c3.2 ++ c4.2)
          else
            let g := getattrByPath b
            Option.some (g.errno, c1.2 ++ c2.2 ++ c3.2 ++ c4.2 ++ g.calls)

/--
Transcription of node.Rename (fsfuse.go lines 398-418): a nonzero
flags value is rejected with ENOSYS before anything else; a
destination parent that is not a node of this layer (newParent is
Option.none) is rejected with EXDEV; otherwise one backend rename is
requested with the joined old and new paths.
-/
def renameModel (nodePath : List String) (name : String)
    (newParent : Option (List String)) (newName : String) (flags : Nat)
    (b : Backend) : Nat × List NodeCall :=
  if flags ≠ 0 then (ENOSYS, [])
  else
    match newParent with
    | Option.none => (EXDEV, [])
    | Option.some p =>
      (toErrno b.renameErr,
       [NodeCall.renameC (nodePath ++ [name]) (p ++ [newName])])

/-! Concrete sample values used to instantiate the theorems below. -/

/-- File info offering neither extended metadata, nor a raw stat, nor
a synthesizable extended view. -/
def plainFileInfo : FileInfo :=
  { size := 11, mode := 0o644, modTime := (300, 30), isDir := false,
    xfi := Option.none, sys := Option.none, ext := Option.none }

/-- Directory file info offering none of the three enrichments. -/
def dirFileInfo : FileInfo :=
  { size := 0, mode := ModeDir ||| 0o755, modTime := (300, 30), isDir := true,
    xfi := Option.none, sys := Option.none, ext := Option.none }

/-- File info that does implement the extended interface directly. -/
def extFileInfo : FileInfo :=
  { size := 11, mode := 0o644, modTime := (1234, 0), isDir := false,
    xfi := Option.some { accessTime := (77, 5), changeTime := (88, 6),
                         ownerId := Option.some 1000,
                         groupId := Option.some 1000 },
    sys := Option.none, ext := Option.none }

/-- Backend whose calls all succeed and whose Lstat yields a plain,
non-extendable file info. -/
def okBackend : Backend :=
  { chmodErr := Option.none, lchownErr := Option.none,
    chtimesErr := Option.none, truncateErr := Option.none,
    renameErr := Option.none, lstatRes := Except.ok plainFileInfo }

/-- Backend whose calls all succeed and whose Lstat yields an
extended file info. -/
def goodLstatBackend : Backend :=
  { chmodErr := Option.none, lchownErr := Option.none,
    chtimesErr := Option.none, truncateErr := Option.none,
    renameErr := Option.none, lstatRes := Except.ok extFileInfo }

/-- Backend whose chmod fails with an error toErrno cannot classify. -/
def badChmodBackend : Backend :=
  { chmodErr := Option.some unrecognizedError, lchownErr := Option.none,
    chtimesErr := Option.none, truncateErr := Option.none,
    renameErr := Option.none, lstatRes := Except.ok plainFileInfo }

/-- Set-attributes request carrying only a modify time. -/
def mtimeOnlySA : SetAttrIn :=
  { mode := Option.none, uid := Option.none, gid := Option.none,
    size := Option.none, mtime := Option.some (500, 1), atime := Option.none }

/-- Set-attributes request carrying only an access time. -/
def atimeOnlySA : SetAttrIn :=
  { mode := Option.none, uid := Option.none, gid := Option.none,
    size := Option.none, mtime := Option.none, atime := Option.some (600, 2) }

/-- Set-attributes request carrying a mode and a size. -/
def modeSizeSA : SetAttrIn :=
  { mode := Option.some 0o644, uid := Option.none, gid := Option.none,
    size := Option.some 123, mtime := Option.none, atime := Option.none }

/--
C1: for a file handle on a backend supporting neither random-access
reads nor seeking, Read with an offset below the tracked offset
returns ENOSYS with the handle untouched (nothing is read); with an
offset above it, when the stream holds fewer bytes than the gap the
discard hits end of stream and the call succeeds with zero bytes, the
tracked offset advancing by the bytes actually discarded; otherwise
exactly the gap is discarded and one sequential read produces
min destLen available bytes, the tracked offset advancing to the
requested offset plus the bytes produced (end of stream on that read
being success with zero bytes); an offset equal to the tracked offset
goes straight to the sequential read.
-/
theorem fileHandleRead_sequential_spec (fh : FileHandle) (destLen off : Nat) :
    (off < fh.offset →
      fileHandleRead fh destLen off = (ReadOutcome.errno ENOSYS, fh)) ∧
    (fh.offset < off → fh.f.data.length - fh.f.pos < off - fh.offset →
      fileHandleRead fh destLen off =
        (ReadOutcome.bytes 0,
         { f := { fh.f with pos := fh.f.pos + (fh.f.data.length - fh.f.pos) },
           offset := fh.offset + (fh.f.data.length - fh.f.pos) })) ∧
    (fh.offset < off → off - fh.offset ≤ fh.f.data.length - fh.f.pos →
      fileHandleRead fh destLen off =
        (ReadOutcome.bytes
          (min destLen (fh.f.data.length - fh.f.pos - (off - fh.offset))),
         { f := { fh.f with pos := (fh.f.pos + (off - fh.offset) +
             min destLen (fh.f.data.length - fh.f.pos - (off - fh.offset))) },
           offset := (off +
             min destLen (fh.f.data.length - fh.f.pos - (off - fh.offset))) })) ∧
    (off = fh.offset →
      fileHandleRead fh destLen off =
        (ReadOutcome.bytes (min destLen (fh.f.data.length - fh.f.pos)),
         { f := { fh.f with pos := (fh.f.pos +
             min destLen (fh.f.data.length - fh.f.pos)) },
           offset := (off + min destLen (fh.f.data.length - fh.f.pos)) })) := by
  refine ⟨?_, ?_, ?_, ?_⟩
  · intro h
    simp [fileHandleRead, h]
  · intro h1 h2
    simp only [fileHandleRead, copyNDiscard, seqReadStep, seqAvail]
    rw [if_neg (by omega), if_pos h1,
      if_pos (by simp only [decide_eq_true_eq]; omega)]
    simp only [Prod.mk.injEq, FileHandle.mk.injEq, SeqBackend.mk.injEq,
      ReadOutcome.bytes.injEq, true_and, and_true]
    omega
  · intro h1 h2
    simp only [fileHandleRead, copyNDiscard, seqReadStep, seqAvail]
    rw [if_neg (by omega), if_pos h1,
      if_neg (by simp only [decide_eq_true_eq]; omega)]
    simp only [Prod.mk.injEq, FileHandle.mk.injEq, SeqBackend.mk.injEq,
      ReadOutcome.bytes.injEq, true_and, and_true]
    omega
  · intro h
    simp only [fileHandleRead, copyNDiscard, seqReadStep, seqAvail]
    rw [if_neg (by omega), if_neg (by omega)]
    simp only [Prod.mk.injEq, FileHandle.mk.injEq, SeqBackend.mk.injEq,
      ReadOutcome.bytes.injEq, true_and, and_true]
    omega

/--
Witness for C1: the spec scenario Read(offset 5) from tracked offset
0 on a 7-byte stream discards 5 bytes, produces the remaining 2, and
leaves the tracked offset at 7.
-/
theorem fileHandleRead_sequential_spec_witness :
    fileHandleRead (mkFileHandle ⟨[9, 9, 9, 9, 9, 9, 9], 0, []⟩) 10 5 =
      (ReadOutcome.bytes 2,
       { f := { data := [9, 9, 9, 9, 9, 9, 9], pos := 7, written := [] },
         offset := 7 }) := by
  have h :=
    (fileHandleRead_sequential_spec
      (mkFileHandle ⟨[9, 9, 9, 9, 9, 9, 9], 0, []⟩) 10 5).2.2.1
      (by decide) (by decide)
  simpa using h

/-- Helper: the padding loop appends exactly the zero-chunk sequence
of the gap and reports the gap as the byte count written. -/
theorem padZeros_eq (r : Nat) : ∀ f : SeqBackend,
    padZeros f r = ({ f with written := f.written ++ zeroChunks r }, r) := by
  induction r using Nat.strong_induction_on with
  | _ r ih =>
    intro f
    rw [padZeros, zeroChunks]
    by_cases h : r = 0
    · simp [h]
    · simp only [if_neg h, seqWriteStep, List.length_replicate]
      rw [ih (r - min r 4096) (by omega)]
      simp only [Prod.mk.injEq, SeqBackend.mk.injEq, List.append_assoc,
        List.singleton_append, true_and]
      omega

/-- Helper: every chunk the padding loop emits is zero filled and at
most 4096 bytes long. -/
theorem zeroChunks_zeros (r : Nat) :
    ∀ c ∈ zeroChunks r, c.length ≤ 4096 ∧ c = List.replicate c.length 0 := by
  induction r using Nat.strong_induction_on with
  | _ r ih =>
    rw [zeroChunks]
    by_cases h : r = 0
    · simp [h]
    · simp only [if_neg h, List.mem_cons]
      rintro c (rfl | hc)
      · refine ⟨by simp only [List.length_replicate]; omega, by simp⟩
      · exact ih (r - min r 4096) (by omega) c hc

/-- Helper: the chunks the padding loop emits total exactly the gap. -/
theorem zeroChunks_total (r : Nat) :
    ((zeroChunks r).map List.length).sum = r := by
  induction r using Nat.strong_induction_on with
  | _ r ih =>
    rw [zeroChunks]
    by_cases h : r = 0
    · simp [h]
    · simp only [if_neg h, List.map_cons, List.sum_cons, List.length_replicate]
      rw [ih (r - min r 4096) (by omega)]
      omega

/--
C2: for a file handle on a backend supporting neither random-access
writes nor seeking, Write with an offset below the tracked offset
returns ENOSYS; otherwise the forward gap is closed by zero-filled
chunks, each at most 4096 bytes and together exactly the gap, after
which the payload is written with one sequential write, the call
reports the payload length, and the tracked offset ends at the
requested offset plus the payload length.
-/
theorem fileHandleWrite_sequential_spec (fh : FileHandle) (data : List Nat)
    (off : Nat) :
    (off < fh.offset → fileHandleWrite fh data off = ((0, ENOSYS), fh)) ∧
    (fh.offset ≤ off →
      fileHandleWrite fh data off =
        ((data.length, 0),
         { f := { fh.f with written :=
             (fh.f.written ++ zeroChunks (off - fh.offset) ++ [data]) },
           offset := off + data.length }) ∧
      (∀ c ∈ zeroChunks (off - fh.offset),
        c.length ≤ 4096 ∧ c = List.replicate c.length 0) ∧
      ((zeroChunks (off - fh.offset)).map List.length).sum =
        off - fh.offset) := by
  constructor
  · intro h
    simp [fileHandleWrite, h]
  · intro h
    refine ⟨?_, zeroChunks_zeros _, zeroChunks_total _⟩
    by_cases h2 : off = fh.offset
    · subst h2
      simp [fileHandleWrite, seqWriteStep, zeroChunks]
    · have h3 : fh.offset < off := by omega
      simp only [fileHandleWrite, seqWriteStep]
      rw [if_neg (by omega), if_pos h3, padZeros_eq]
      simp only [Prod.mk.injEq, FileHandle.mk.injEq, SeqBackend.mk.injEq,
        List.append_assoc, true_and, and_true]
      omega

/--
Witness for C2: the spec scenario Write(offset 5) from tracked offset
0 writes one 5-byte all-zero chunk, then the 3-byte payload, and the
tracked offset ends at 8.
-/
theorem fileHandleWrite_sequential_spec_witness :
    fileHandleWrite (mkFileHandle ⟨[], 0, []⟩) [7, 7, 7] 5 =
      ((3, 0),
       { f := { data := [], pos := 0,
                written := [List.replicate 5 0, [7, 7, 7]] },
         offset := 8 }) := by
  have h :=
    ((fileHandleWrite_sequential_spec (mkFileHandle ⟨[], 0, []⟩) [7, 7, 7] 5).2
      (by decide)).1
  rw [h]
  simp [mkFileHandle, zeroChunks]

/--
C3: converting each of the seven protocol file-type encodings
combined with each of the eight setuid/setgid/sticky combinations and
the representative permission values 0644, 0755 and 0777 through
toFileMode and back through toFuseMode reproduces the original mode
word, and likewise in the other direction.
-/
theorem mode_round_trip :
    (∀ t ∈ fuseTypeBits, ∀ s ∈ fuseSpecialBits, ∀ p ∈ permBits,
      toFuseMode (toFileMode (t ||| s ||| p)) = t ||| s ||| p) ∧
    (∀ t ∈ hostTypeBits, ∀ s ∈ hostSpecialBits, ∀ p ∈ permBits,
      toFileMode (toFuseMode (t ||| s ||| p)) = t ||| s ||| p) := by decide

/-- Witness for C3: the sticky directory case at permissions 0755,
in both directions. -/
theorem mode_round_trip_witness :
    toFuseMode (toFileMode (S_IFDIR ||| S_ISVTX ||| 0o755)) =
      S_IFDIR ||| S_ISVTX ||| 0o755 ∧
    toFileMode (toFuseMode (ModeDir ||| ModeSticky ||| 0o755)) =
      ModeDir ||| ModeSticky ||| 0o755 :=
  ⟨mode_round_trip.1 _ (by decide) _ (by decide) _ (by decide),
   mode_round_trip.2 _ (by decide) _ (by decide) _ (by decide)⟩

/--
C4: toErrno maps a nil failure to 0, passes a carried system error
code through unchanged, otherwise matches not-found, permission,
invalid-argument, already-exists and unsupported-operation in that
priority order to ENOENT, EPERM, EINVAL, EEXIST and ENOSYS, and maps
every unmatched failure to the generic I/O code.
-/
theorem toErrno_spec :
    toErrno Option.none = 0 ∧
    (∀ e c, e.errnoVal = Option.some c → toErrno (Option.some e) = c) ∧
    (∀ e : GoError, e.errnoVal = Option.none → e.isNotExist = true →
      toErrno (Option.some e) = ENOENT) ∧
    (∀ e : GoError, e.errnoVal = Option.none → e.isNotExist = false →
      e.isPermission = true → toErrno (Option.some e) = EPERM) ∧
    (∀ e : GoError, e.errnoVal = Option.none → e.isNotExist = false →
      e.isPermission = false → e.isInvalid = true →
      toErrno (Option.some e) = EINVAL) ∧
    (∀ e : GoError, e.errnoVal = Option.none → e.isNotExist = false →
      e.isPermission = false → e.isInvalid = false → e.isExist = true →
      toErrno (Option.some e) = EEXIST) ∧
    (∀ e : GoError, e.errnoVal = Option.none → e.isNotExist = false →
      e.isPermission = false → e.isInvalid = false → e.isExist = false →
      e.isUnsupported = true → toErrno (Option.some e) = ENOSYS) ∧
    (∀ e : GoError, e.errnoVal = Option.none → e.isNotExist = false →
      e.isPermission = false → e.isInvalid = false → e.isExist = false →
      e.isUnsupported = false → toErrno (Option.some e) = EIOerr) := by
  refine ⟨rfl, ?_, ?_, ?_, ?_, ?_, ?_, ?_⟩ <;>
    · intro e
      obtain ⟨ev, b1, b2, b3, b4, b5⟩ := e
      intros
      simp_all [toErrno]

/-- Witness for C4: an error matched by no check yields the generic
I/O code. -/
theorem toErrno_spec_witness :
    toErrno (Option.some unrecognizedError) = EIOerr :=
  toErrno_spec.2.2.2.2.2.2.2 unrecognizedError rfl rfl rfl rfl rfl rfl

/--
C5: Setattr runs chmod, chown, chtimes and truncate in that strict
order, each only when requested, stops at the first failing
sub-change with that sub-change's errno and no later backend call (in
particular no truncate call when chmod fails), finishes a fully
successful run with the attribute re-query, and in the mode-plus-size
scenario with an unrecognized chmod failure returns the generic I/O
code with the truncate call never issued.
-/
theorem setattr_order_spec (b : Backend) (sa : SetAttrIn) :
    ((chmodOp b sa).1 ≠ 0 →
      setattrModel b sa = Option.some ((chmodOp b sa).1, (chmodOp b sa).2) ∧
      ∀ sz, NodeCall.truncateC sz ∉ (chmodOp b sa).2) ∧
    ((chmodOp b sa).1 = 0 → (chownOp b sa).1 ≠ 0 →
      setattrModel b sa =
        Option.some ((chownOp b sa).1, (chmodOp b sa).2 ++ (chownOp b sa).2)) ∧
    (∀ c3, (chmodOp b sa).1 = 0 → (chownOp b sa).1 = 0 →
      chtimesOp b sa = Option.some c3 → c3.1 ≠ 0 →
      setattrModel b sa =
        Option.some (c3.1, (chmodOp b sa).2 ++ (chownOp b sa).2 ++ c3.2)) ∧
    (∀ c3, (chmodOp b sa).1 = 0 → (chownOp b sa).1 = 0 →
      chtimesOp b sa = Option.some c3 → c3.1 = 0 → (truncateOp b sa).1 ≠ 0 →
      setattrModel b sa =
        Option.some ((truncateOp b sa).1,
          ((chmodOp b sa).2 ++ (chownOp b sa).2 ++ c3.2 ++
            (truncateOp b sa).2))) ∧
    (∀ c3, (chmodOp b sa).1 = 0 → (chownOp b sa).1 = 0 →
      chtimesOp b sa = Option.some c3 → c3.1 = 0 → (truncateOp b sa).1 = 0 →
      setattrModel b sa =
        Option.some ((getattrByPath b).errno,
          ((chmodOp b sa).2 ++ (chownOp b sa).2 ++ c3.2 ++
            (truncateOp b sa).2 ++ (getattrByPath b).calls))) ∧
    (∀ m sz, sa.mode = Option.some m → sa.size = Option.some sz →
      b.chmodErr = Option.some unrecognizedError →
      setattrModel b sa = Option.some (EIOerr, [NodeCall.chmodC m]) ∧
      ∀ s, NodeCall.truncateC s ∉ [NodeCall.chmodC m]) := by
  refine ⟨?_, ?_, ?_, ?_, ?_, ?_⟩
  · intro h
    constructor
    · simp [setattrModel, h]
    · intro sz
      cases hm : sa.mode <;> simp [chmodOp, hm]
  · intro h1 h2
    simp [setattrModel, h1, h2]
  · intro c3 h1 h2 h3 h4
    simp [setattrModel, h1, h2, h3, h4]
  · intro c3 h1 h2 h3 h4 h5
    simp [setattrModel, h1, h2, h3, h4, h5]
  · intro c3 h1 h2 h3 h4 h5
    simp [setattrModel, h1, h2, h3, h4, h5]
  · intro m sz hm hsz hb
    have hch : chmodOp b sa = (EIOerr, [NodeCall.chmodC m]) := by
      simp [chmodOp, hm, hb, toErrno, unrecognizedError]
    constructor
    · simp [setattrModel, hch, EIOerr]
    · simp

/--
Witness for C5: the spec scenario with mode and size both requested
and an unrecognized chmod failure stops after the chmod call with the
generic I/O code.
-/
theorem setattr_order_spec_witness :
    setattrModel badChmodBackend modeSizeSA =
      Option.some (EIOerr, [NodeCall.chmodC 0o644]) :=
  ((setattr_order_spec badChmodBackend modeSizeSA).2.2.2.2.2 0o644 123
    rfl rfl rfl).1

/--
C6: evaluation of the timestamp sub-change at concrete inputs.  With
only a modify time requested and a stat result carrying Extended
Metadata, the path is re-stated and the combined call is issued with
the metadata access time; with only an access time requested, the
combined call is issued with the stat result's modify time; but with
only a modify time requested and a stat result exposing no Extended
Metadata view, the Go code dereferences a nil interface and the
operation does not complete (Option.none), against the claim that it
completes for every stat result.
-/
theorem chtimes_fill_eval :
    chtimesOp goodLstatBackend mtimeOnlySA =
      Option.some (0, [NodeCall.lstatC, NodeCall.chtimesC (77, 5) (500, 1)]) ∧
    chtimesOp goodLstatBackend atimeOnlySA =
      Option.some (0, [NodeCall.lstatC, NodeCall.chtimesC (600, 2) (1234, 0)]) ∧
    chtimesOp okBackend mtimeOnlySA = Option.none :=
  ⟨rfl, rfl, rfl⟩

/--
C7 counterexample: a directory source providing neither Extended
Metadata nor a Raw System Stat is filled with link count 2, not 1,
refuting the unconditional link-count clause of the claim.
-/
theorem statToAttr_defaults_counterexample :
    dirFileInfo.xfi = Option.none ∧ dirFileInfo.sys = Option.none ∧
    dirFileInfo.ext = Option.none ∧
    (statToAttr dirFileInfo zeroAttr).nlink ≠ 1 := by decide

/--
C7 amended: for every source providing neither Extended Metadata nor
a Raw System Stat (nor a synthesizable extended view), the filled
attributes carry access and change time equal to the modify time,
block size 4096, and link count 1 for a non-directory source and 2
for a directory source.
-/
theorem statToAttr_defaults_amended (fi : FileInfo) (out : Attr)
    (h1 : fi.xfi = Option.none) (h2 : fi.sys = Option.none)
    (h3 : fi.ext = Option.none) :
    (statToAttr fi out).atime = fi.modTime.1 ∧
    (statToAttr fi out).atimensec = fi.modTime.2 ∧
    (statToAttr fi out).ctime = fi.modTime.1 ∧
    (statToAttr fi out).ctimensec = fi.modTime.2 ∧
    (statToAttr fi out).blksize = 4096 ∧
    (statToAttr fi out).nlink = (if fi.isDir then 2 else 1) := by
  simp [statToAttr, h1, h2, h3]
  cases h : fi.isDir <;> simp

/-- Witness for C7: a plain non-directory source is filled with the
default link count 1. -/
theorem statToAttr_defaults_amended_witness :
    (statToAttr plainFileInfo zeroAttr).nlink = 1 := by
  have h := statToAttr_defaults_amended plainFileInfo zeroAttr rfl rfl rfl
  simpa [plainFileInfo] using h.2.2.2.2.2

/--
C8: Rename rejects every nonzero flags value with ENOSYS before any
backend call, rejects a destination parent that is not a node of this
layer with EXDEV, and otherwise issues exactly one backend rename
with the joined old and new paths.
-/
theorem rename_spec (nodePath : List String) (name : String)
    (newParent : Option (List String)) (newName : String) (flags : Nat)
    (b : Backend) :
    (flags ≠ 0 →
      renameModel nodePath name newParent newName flags b = (ENOSYS, [])) ∧
    (flags = 0 → newParent = Option.none →
      renameModel nodePath name newParent newName flags b = (EXDEV, [])) ∧
    (∀ p, flags = 0 → newParent = Option.some p →
      renameModel nodePath name newParent newName flags b =
        (toErrno b.renameErr,
         [NodeCall.renameC (nodePath ++ [name]) (p ++ [newName])])) := by
  refine ⟨?_, ?_, ?_⟩ <;> intros <;> simp_all [renameModel]

/-- Witness for C8: flags value 1 is rejected with ENOSYS and no
backend call. -/
theorem rename_spec_witness :
    renameModel ["root"] "old" Option.none "new" 1 okBackend = (ENOSYS, []) :=
  (rename_spec ["root"] "old" Option.none "new" 1 okBackend).1 (by decide)

/--
C9: the tracked offset starts at zero when the handle is created and
never decreases under any sequence of Read, Write, Flush and Release
operations.
-/
theorem offset_monotone :
    (∀ f : SeqBackend, (mkFileHandle f).offset = 0) ∧
    (∀ (fh : FileHandle) (op : FHOp), fh.offset ≤ (fhStep fh op).offset) ∧
    (∀ (fh : FileHandle) (ops : List FHOp),
      fh.offset ≤ (List.foldl fhStep fh ops).offset) := by
  have hstep : ∀ (fh : FileHandle) (op : FHOp),
      fh.offset ≤ (fhStep fh op).offset := by
    intro fh op
    cases op with
    | read d o =>
      simp only [fhStep, fileHandleRead, copyNDiscard, seqReadStep, seqAvail]
      split_ifs <;> simp
      omega
    | write data o =>
      simp only [fhStep, fileHandleWrite, seqWriteStep]
      split_ifs with h1 h2
      · simp
      · rw [padZeros_eq]
        simp only [FileHandle.mk.injEq]
        omega
      · simp
    | flush => exact Nat.le_refl _
    | release => exact Nat.le_refl _
  refine ⟨fun f => rfl, hstep, ?_⟩
  intro fh ops
  induction ops generalizing fh with
  | nil => simp
  | cons op rest ih => exact Nat.le_trans (hstep fh op) (ih _)

/--
C10: when a handle of this layer is supplied but its backend Stat
fails, Getattr behaves exactly as if no handle had been supplied: the
handle error is neither returned nor logged, and the errno and
attributes are determined solely by the path Lstat.
-/
theorem getattr_fallback_spec (b : Backend) (e : GoError) :
    getattrModel b (Option.some (Except.error e)) = getattrModel b Option.none ∧
    (∀ e2, b.lstatRes = Except.error e2 →
      (getattrModel b (Option.some (Except.error e))).errno =
        toErrno (Option.some e2) ∧
      (getattrModel b (Option.some (Except.error e))).attr = Option.none) ∧
    (∀ fi, b.lstatRes = Except.ok fi →
      (getattrModel b (Option.some (Except.error e))).errno = 0 ∧
      (getattrModel b (Option.some (Except.error e))).attr =
        Option.some (statToAttr fi zeroAttr)) := by
  refine ⟨rfl, ?_, ?_⟩ <;> · intro x h; simp [getattrModel, getattrByPath, h]

/-- Witness for C10: a failed handle stat over a healthy path stat
still reports success. -/
theorem getattr_fallback_spec_witness :
    (getattrModel okBackend
      (Option.some (Except.error unrecognizedError))).errno = 0 :=
  ((getattr_fallback_spec okBackend unrecognizedError).2.2 _ rfl).1

end FsFuse
